import Mathlib

/-!
Verification of the debounce/cooldown core of `phone_detect_play.py`.

The engine state lives in three variables of `main` (lines 72-74):
`consecutive_hits` (Python int), `detected_stable` (bool) and
`last_trigger_time` (float, initialised to `0.0`).  Each loop iteration,
after the classifier has produced the boolean `phone_present_this_frame`,
runs the block of lines 110-126: update the hit counter, evaluate the
threshold/cooldown gate, possibly fire the trigger, then the
stable-flag reset.  We embed one iteration of that block as a pure step
function on the state, with the frame boolean and the sampled time
`now = time.time()` as inputs; Python ints become `ℤ` and times become `ℚ`.
-/

/-- The two configuration values read by the debounce core from the parsed
CLI arguments: `args.frames` (`--frames`, an int) and `args.cooldown`
(`--cooldown`, a float).  Lines 34-35 of `parse_args`. -/
structure Args where
  frames : ℤ
  cooldown : ℚ
deriving DecidableEq

/-- The mutable engine state of `main`, lines 72-74. -/
structure EngineState where
  consecutive_hits : ℤ
  detected_stable : Bool
  last_trigger_time : ℚ
deriving DecidableEq

/-- Initial state (lines 72-74): `consecutive_hits = 0`,
`detected_stable = False`, `last_trigger_time = 0.0`. -/
def initState : EngineState := ⟨0, false, 0⟩

/-- Embeds `parse_args` (lines 28-38) restricted to the two debounce
options, taking the values already converted by `argparse` (`type=int`
for `--frames`, `type=float` for `--cooldown`).  The source performs no
range validation on either option, so every pair of values parses. -/
def parse_args (frames : ℤ) (cooldown : ℚ) : Option Args :=
  some { frames := frames, cooldown := cooldown }

/-- The construction-time behaviour described by the spec (section 7):
`threshold_frames <= 0` or `cooldown_seconds < 0` is a configuration
error rejected at construction.  Stated here only to compare against
`parse_args`, which is the behaviour of the source. -/
def parse_args_specified (frames : ℤ) (cooldown : ℚ) : Option Args :=
  if frames ≤ 0 ∨ cooldown < 0 then none else some { frames := frames, cooldown := cooldown }

/-- A tick: the per-frame boolean `phone_present_this_frame` paired with
the timestamp `now = time.time()` sampled on line 116. -/
abbrev Tick := Bool × ℚ

/-- One iteration of the debounce block, lines 110-126 of `main`:

* lines 111-114: `consecutive_hits += 1` when present, else
  `consecutive_hits = max(0, consecutive_hits - 1)`;
* line 117: `became_stable = (not detected_stable) and (consecutive_hits >= args.frames)`;
* lines 118-122: if `became_stable and (now - last_trigger_time) >= args.cooldown`,
  trigger (open the URL), set `last_trigger_time = now`, `detected_stable = True`;
* lines 125-126: if `detected_stable and consecutive_hits == 0`,
  set `detected_stable = False`.

Returns the new state and whether the trigger fired this iteration. -/
def step (args : Args) (s : EngineState) (phone_present_this_frame : Bool) (now : ℚ) :
    EngineState × Bool :=
  let consecutive_hits : ℤ :=
    if phone_present_this_frame then s.consecutive_hits + 1
    else max 0 (s.consecutive_hits - 1)
  let became_stable : Bool :=
    (!s.detected_stable) && decide (args.frames ≤ consecutive_hits)
  let fire : Bool :=
    became_stable && decide (args.cooldown ≤ now - s.last_trigger_time)
  let s1 : EngineState :=
    if fire then ⟨consecutive_hits, true, now⟩
    else ⟨consecutive_hits, s.detected_stable, s.last_trigger_time⟩
  let s2 : EngineState :=
    if s1.detected_stable && decide (s1.consecutive_hits = 0) then
      ⟨s1.consecutive_hits, false, s1.last_trigger_time⟩
    else s1
  (s2, fire)

/-- The trace of the loop from state `s` over a list of ticks: for each
tick, the state at the end of the iteration and whether the trigger
fired on that iteration. -/
def runFrom (args : Args) (s : EngineState) : List Tick → List (EngineState × Bool)
  | [] => []
  | t :: ts =>
    let p := step args s t.1 t.2
    p :: runFrom args p.1 ts

/-- The engine state after feeding a list of ticks from state `s`
(the loop of lines 110-126 iterated, keeping only the final state). -/
def runState (args : Args) (s : EngineState) : List Tick → EngineState
  | [] => s
  | t :: ts => runState args (step args s t.1 t.2).1 ts


theorem step_hits (args : Args) (s : EngineState) (pr : Bool) (n : ℚ) :
    (step args s pr n).1.consecutive_hits =
      if pr then s.consecutive_hits + 1 else max 0 (s.consecutive_hits - 1) := by
  rcases s with ⟨c, st, lt⟩
  cases pr <;> cases st <;>
    simp [step, apply_ite EngineState.consecutive_hits]

theorem step_fire (args : Args) (s : EngineState) (pr : Bool) (n : ℚ) :
    (step args s pr n).2 =
      ((!s.detected_stable) &&
        decide (args.frames ≤ (if pr then s.consecutive_hits + 1
                               else max 0 (s.consecutive_hits - 1))) &&
        decide (args.cooldown ≤ n - s.last_trigger_time)) := by
  simp only [step]

theorem step_no_fire_of_stable (args : Args) (s : EngineState) (pr : Bool) (n : ℚ)
    (hs : s.detected_stable = true) : (step args s pr n).2 = false := by
  simp [step, hs]

theorem step_last_of_no_fire (args : Args) (s : EngineState) (pr : Bool) (n : ℚ)
    (h : (step args s pr n).2 = false) :
    (step args s pr n).1.last_trigger_time = s.last_trigger_time := by
  rcases s with ⟨c, st, lt⟩
  simp only [step] at h ⊢
  simp [h, apply_ite EngineState.last_trigger_time]

theorem step_of_no_fire_not_stable (args : Args) (s : EngineState) (pr : Bool) (n : ℚ)
    (hs : s.detected_stable = false) (h : (step args s pr n).2 = false) :
    (step args s pr n).1 =
      ⟨if pr then s.consecutive_hits + 1 else max 0 (s.consecutive_hits - 1),
       false, s.last_trigger_time⟩ := by
  rcases s with ⟨c, st, lt⟩
  simp only [EngineState.detected_stable] at hs
  subst hs
  simp only [step] at h ⊢
  rw [h]
  simp

theorem step_of_fire (args : Args) (s : EngineState) (pr : Bool) (n : ℚ)
    (h : (step args s pr n).2 = true) :
    (step args s pr n).1 =
      ⟨if pr then s.consecutive_hits + 1 else max 0 (s.consecutive_hits - 1),
       !decide ((if pr then s.consecutive_hits + 1 else max 0 (s.consecutive_hits - 1)) = 0),
       n⟩ := by
  rcases s with ⟨c, st, lt⟩
  simp only [step] at h ⊢
  rw [h]
  by_cases hz : (if pr = true then c + 1 else max 0 (c - 1)) = 0 <;> simp [hz]

theorem step_fire_threshold (args : Args) (s : EngineState) (pr : Bool) (n : ℚ)
    (h : (step args s pr n).2 = true) :
    args.frames ≤ (step args s pr n).1.consecutive_hits := by
  rw [step_hits]
  rw [step_fire] at h
  simp only [Bool.and_eq_true, decide_eq_true_eq] at h
  exact h.1.2

theorem step_fire_cooldown (args : Args) (s : EngineState) (pr : Bool) (n : ℚ)
    (h : (step args s pr n).2 = true) :
    args.cooldown ≤ n - s.last_trigger_time := by
  rw [step_fire] at h
  simp only [Bool.and_eq_true, decide_eq_true_eq] at h
  exact h.2

theorem step_stable_of_not_stable (args : Args) (s : EngineState) (pr : Bool) (n : ℚ)
    (hs : s.detected_stable = false) (h : (step args s pr n).1.detected_stable = true) :
    (step args s pr n).2 = true := by
  by_contra hf
  rw [Bool.not_eq_true] at hf
  rw [step_of_no_fire_not_stable args s pr n hs hf] at h
  simp at h

theorem step_zero_of_stable_cleared (args : Args) (s : EngineState) (pr : Bool) (n : ℚ)
    (hs : s.detected_stable = true) (h : (step args s pr n).1.detected_stable = false) :
    (step args s pr n).1.consecutive_hits = 0 := by
  rcases s with ⟨c, st, lt⟩
  simp only [EngineState.detected_stable] at hs
  subst hs
  cases pr <;>
    simp only [step] at h ⊢ <;> simp_all <;> split_ifs at h ⊢ <;> simp_all

theorem step_hits_nonneg (args : Args) (s : EngineState) (pr : Bool) (n : ℚ)
    (h : 0 ≤ s.consecutive_hits) : 0 ≤ (step args s pr n).1.consecutive_hits := by
  rw [step_hits]
  split
  · omega
  · exact le_max_left 0 _

theorem runFrom_hits_nonneg (args : Args) (ts : List Tick) :
    ∀ (s : EngineState), 0 ≤ s.consecutive_hits →
      ∀ p ∈ runFrom args s ts, 0 ≤ p.1.consecutive_hits := by
  induction ts with
  | nil => intro s _ p hp; simp [runFrom] at hp
  | cons t ts ih =>
    intro s hs p hp
    simp only [runFrom, List.mem_cons] at hp
    rcases hp with hp | hp
    · subst hp; exact step_hits_nonneg args s t.1 t.2 hs
    · exact ih (step args s t.1 t.2).1 (step_hits_nonneg args s t.1 t.2 hs) p hp

theorem runFrom_mem_step (args : Args) (ts : List Tick) :
    ∀ (s : EngineState), ∀ p ∈ runFrom args s ts,
      ∃ s0 pr n, p = step args s0 pr n := by
  induction ts with
  | nil => intro s p hp; simp [runFrom] at hp
  | cons t ts ih =>
    intro s p hp
    simp only [runFrom, List.mem_cons] at hp
    rcases hp with hp | hp
    · exact ⟨s, t.1, t.2, hp⟩
    · exact ih (step args s t.1 t.2).1 p hp

/-- While the engine is stable with a positive hit counter, a run of
present frames fires no trigger: line 117's `not detected_stable`
conjunct is false on every iteration, and the counter only grows, so the
reset of lines 125-126 never clears the flag. -/
theorem runFrom_stable_absorb (args : Args) (ts : List ℚ) :
    ∀ (s : EngineState), s.detected_stable = true → 0 < s.consecutive_hits →
      (runFrom args s (ts.map (fun t => (true, t)))).map Prod.snd
        = ts.map (fun _ => false) := by
  induction ts with
  | nil => intro s _ _; simp [runFrom]
  | cons t ts ih =>
    intro s hs hpos
    have hfire : (step args s true t).2 = false := step_no_fire_of_stable args s true t hs
    have hhits : (step args s true t).1.consecutive_hits = s.consecutive_hits + 1 := by
      rw [step_hits]; simp
    have hstable : (step args s true t).1.detected_stable = true := by
      by_contra hc
      rw [Bool.not_eq_true] at hc
      have := step_zero_of_stable_cleared args s true t hs hc
      omega
    simp only [List.map_cons, runFrom, hfire]
    rw [ih (step args s true t).1 hstable (by omega)]

/-- The trigger pattern the spec's "pending-fire" note describes: among a
run of ticks with timestamps `ts`, exactly the first one whose elapsed
time since `last` meets the cooldown `cd` fires. -/
def pendingFireSpec (last cd : ℚ) : List ℚ → List Bool
  | [] => []
  | t :: ts =>
    if cd ≤ t - last then true :: ts.map (fun _ => false)
    else false :: pendingFireSpec last cd ts

/-- From a pending state (not stable, counter already at or above the
threshold and non-negative), a run of present frames fires exactly at
the first tick whose timestamp clears the cooldown. -/
theorem runFrom_pending (args : Args) (ts : List ℚ) :
    ∀ (s : EngineState), s.detected_stable = false →
      args.frames ≤ s.consecutive_hits → 0 ≤ s.consecutive_hits →
      (runFrom args s (ts.map (fun t => (true, t)))).map Prod.snd
        = pendingFireSpec s.last_trigger_time args.cooldown ts := by
  induction ts with
  | nil => intro s _ _ _; simp [runFrom, pendingFireSpec]
  | cons t ts ih =>
    intro s hs hge h0
    have hfire : (step args s true t).2
        = decide (args.cooldown ≤ t - s.last_trigger_time) := by
      rw [step_fire, hs]
      have : args.frames ≤ s.consecutive_hits + 1 := by omega
      simp [this]
    have hhits : (step args s true t).1.consecutive_hits = s.consecutive_hits + 1 := by
      rw [step_hits]; simp
    simp only [List.map_cons, runFrom, pendingFireSpec]
    by_cases hcd : args.cooldown ≤ t - s.last_trigger_time
    · have hfire' : (step args s true t).2 = true := by rw [hfire]; simp [hcd]
      have hstable : (step args s true t).1.detected_stable = true := by
        rw [step_of_fire args s true t hfire']
        simp only
        have : s.consecutive_hits + 1 ≠ 0 := by omega
        simp [this]
      rw [if_pos hcd]
      rw [runFrom_stable_absorb args ts (step args s true t).1 hstable (by omega)]
      simp [hfire']
    · have hfire' : (step args s true t).2 = false := by rw [hfire]; simp [hcd]
      have hnext := step_of_no_fire_not_stable args s true t hs hfire'
      simp only [if_pos rfl] at hnext
      rw [if_neg hcd, hfire', hnext]
      exact congrArg (List.cons false)
        (ih ⟨s.consecutive_hits + 1, false, s.last_trigger_time⟩ rfl
          (by show args.frames ≤ s.consecutive_hits + 1; omega)
          (by show (0:ℤ) ≤ s.consecutive_hits + 1; omega))

/-- From a stable state, a trigger can occur at position `j` of the trace
only after some earlier position whose end-of-tick counter is exactly 0:
line 117 blocks firing until lines 125-126 have cleared the flag, which
they do only when `consecutive_hits == 0`. -/
theorem runFrom_stable_fire_after_zero (args : Args) (ts : List Tick) :
    ∀ (s : EngineState), s.detected_stable = true →
      ∀ (j : ℕ) (sj : EngineState),
        (runFrom args s ts)[j]? = some (sj, true) →
        ∃ (k : ℕ) (sk : EngineState) (bk : Bool), k < j ∧
          (runFrom args s ts)[k]? = some (sk, bk) ∧ sk.consecutive_hits = 0 := by
  induction ts with
  | nil => intro s _ j sj hj; simp [runFrom] at hj
  | cons t ts ih =>
    intro s hs j sj hj
    simp only [runFrom] at hj ⊢
    match j with
    | 0 =>
      rw [List.getElem?_cons_zero] at hj
      have : (step args s t.1 t.2).2 = false := step_no_fire_of_stable args s t.1 t.2 hs
      rw [Option.some_inj] at hj
      rw [hj] at this
      simp at this
    | j' + 1 =>
      rw [List.getElem?_cons_succ] at hj
      by_cases hst : (step args s t.1 t.2).1.detected_stable = true
      · obtain ⟨k, sk, bk, hk, hget, hzero⟩ := ih (step args s t.1 t.2).1 hst j' sj hj
        exact ⟨k + 1, sk, bk, by omega, by rw [List.getElem?_cons_succ]; exact hget, hzero⟩
      · rw [Bool.not_eq_true] at hst
        refine ⟨0, (step args s t.1 t.2).1, (step args s t.1 t.2).2, by omega, ?_, ?_⟩
        · rw [List.getElem?_cons_zero]
        · exact step_zero_of_stable_cleared args s t.1 t.2 hs hst

/-- If the trace from any state fires at two positions `i < j`, some
position in `[i, j)` ends with a zero counter: a second trigger needs the
stable flag cleared first, and only a zero counter clears it. -/
theorem runFrom_two_fires (args : Args) (ts : List Tick) :
    ∀ (s : EngineState) (i j : ℕ) (si sj : EngineState), i < j →
      (runFrom args s ts)[i]? = some (si, true) →
      (runFrom args s ts)[j]? = some (sj, true) →
      ∃ (k : ℕ) (sk : EngineState) (bk : Bool), i ≤ k ∧ k < j ∧
        (runFrom args s ts)[k]? = some (sk, bk) ∧ sk.consecutive_hits = 0 := by
  induction ts with
  | nil => intro s i j si sj hij hi hj; simp [runFrom] at hi
  | cons t ts ih =>
    intro s i j si sj hij hi hj
    simp only [runFrom] at hi hj ⊢
    match i, j with
    | 0, j' + 1 =>
      rw [List.getElem?_cons_zero, Option.some_inj] at hi
      rw [List.getElem?_cons_succ] at hj
      by_cases hst : (step args s t.1 t.2).1.detected_stable = true
      · obtain ⟨k, sk, bk, hk, hget, hzero⟩ :=
          runFrom_stable_fire_after_zero args ts (step args s t.1 t.2).1 hst j' sj hj
        exact ⟨k + 1, sk, bk, by omega, by omega,
          by rw [List.getElem?_cons_succ]; exact hget, hzero⟩
      · rw [Bool.not_eq_true] at hst
        have hfire : (step args s t.1 t.2).2 = true := by
          rw [hi]
        have hzero : (step args s t.1 t.2).1.consecutive_hits = 0 := by
          rw [step_of_fire args s t.1 t.2 hfire] at hst ⊢
          simp only at hst ⊢
          by_contra hc
          simp [hc] at hst
        exact ⟨0, (step args s t.1 t.2).1, (step args s t.1 t.2).2, by omega, by omega,
          by rw [List.getElem?_cons_zero], hzero⟩
    | i' + 1, j' + 1 =>
      rw [List.getElem?_cons_succ] at hi hj
      obtain ⟨k, sk, bk, hk1, hk2, hget, hzero⟩ :=
        ih (step args s t.1 t.2).1 i' j' si sj (by omega) hi hj
      exact ⟨k + 1, sk, bk, by omega, by omega,
        by rw [List.getElem?_cons_succ]; exact hget, hzero⟩

/-- Every position of the trace whose state is stable is at or after a
position whose end-of-tick counter meets the threshold: starting
non-stable, the flag is first set by the trigger of lines 119-122, which
line 117 guards with `consecutive_hits >= args.frames`. -/
theorem runFrom_stable_reached (args : Args) (ts : List Tick) :
    ∀ (s : EngineState), s.detected_stable = false →
      ∀ (j : ℕ) (sj : EngineState) (b : Bool),
        (runFrom args s ts)[j]? = some (sj, b) → sj.detected_stable = true →
        ∃ (k : ℕ) (sk : EngineState) (bk : Bool), k ≤ j ∧
          (runFrom args s ts)[k]? = some (sk, bk) ∧
          args.frames ≤ sk.consecutive_hits := by
  induction ts with
  | nil => intro s _ j sj b hj; simp [runFrom] at hj
  | cons t ts ih =>
    intro s hs j sj b hj hstable
    simp only [runFrom] at hj ⊢
    match j with
    | 0 =>
      rw [List.getElem?_cons_zero, Option.some_inj] at hj
      have hst : (step args s t.1 t.2).1.detected_stable = true := by
        rw [hj]; exact hstable
      have hfire := step_stable_of_not_stable args s t.1 t.2 hs hst
      exact ⟨0, (step args s t.1 t.2).1, (step args s t.1 t.2).2, le_refl 0,
        by rw [List.getElem?_cons_zero], step_fire_threshold args s t.1 t.2 hfire⟩
    | j' + 1 =>
      rw [List.getElem?_cons_succ] at hj
      by_cases hst : (step args s t.1 t.2).1.detected_stable = true
      · have hfire := step_stable_of_not_stable args s t.1 t.2 hs hst
        exact ⟨0, (step args s t.1 t.2).1, (step args s t.1 t.2).2, by omega,
          by rw [List.getElem?_cons_zero], step_fire_threshold args s t.1 t.2 hfire⟩
      · rw [Bool.not_eq_true] at hst
        obtain ⟨k, sk, bk, hk, hget, hth⟩ := ih (step args s t.1 t.2).1 hst j' sj b hj hstable
        exact ⟨k + 1, sk, bk, by omega, by rw [List.getElem?_cons_succ]; exact hget, hth⟩

/-- Over present frames the counter gains exactly one per tick,
whatever the trigger and the stable flag do. -/
theorem runState_present_hits (args : Args) (ts : List ℚ) :
    ∀ (s : EngineState),
      (runState args s (ts.map (fun t => (true, t)))).consecutive_hits
        = s.consecutive_hits + ts.length := by
  induction ts with
  | nil => intro s; simp [runState]
  | cons t ts ih =>
    intro s
    simp only [List.map_cons, runState]
    rw [ih (step args s true t).1]
    have hh : (step args s true t).1.consecutive_hits = s.consecutive_hits + 1 := by
      rw [step_hits]; simp
    rw [hh]
    simp only [List.length_cons]
    push_cast
    ring

/-! ### Concrete scenarios -/

/-- Configuration `--frames 1 --cooldown 0`. -/
def cfgA : Args := ⟨1, 0⟩

/-- Two present frames at times 0 and 1. -/
def ticksA : List Tick := [(true, 0), (true, 1)]

/-- Configuration `--frames 3 --cooldown 5` (spec section 8, Scenario 2). -/
def cfgB : Args := ⟨3, 5⟩

/-- Five present frames at times 0, 1, 2, 3, 10 (Scenario 2). -/
def ticksB : List Tick := [(true, 0), (true, 1), (true, 2), (true, 3), (true, 10)]

/-- Present, absent, present at times 0, 1, 2: two complete episodes. -/
def ticksC : List Tick := [(true, 0), (false, 1), (true, 2)]

/-- The flicker pattern of spec Scenario 4, `present = [T,T,F,T,T,T]`,
at arbitrary timestamps. -/
def flickerTicks (t1 t2 t3 t4 t5 t6 : ℚ) : List Tick :=
  [(true, t1), (true, t2), (false, t3), (true, t4), (true, t5), (true, t6)]

/-! ### The claims -/

/-- C1, counterexample: with `threshold_frames = 1 > 0` and two present
ticks, `hit_score` ends at 2, above `threshold_frames` — the increment
of line 112 has no cap, so the claimed saturation law is false. -/
theorem C1_counterexample :
    0 < cfgA.frames ∧
    ¬ (∀ p ∈ runFrom cfgA initState ticksA,
        0 ≤ p.1.consecutive_hits ∧ p.1.consecutive_hits ≤ cfgA.frames) := by
  have hrun : runFrom cfgA initState ticksA
      = [(⟨1, true, 0⟩, true), (⟨2, true, 0⟩, false)] := by
    norm_num [runFrom, step, initState, ticksA, cfgA]
  constructor
  · norm_num [cfgA]
  · intro h
    rw [hrun] at h
    have := (h (⟨2, true, 0⟩, false) (by simp)).2
    norm_num [cfgA] at this

/-- C1 (amended): `hit_score` never goes below 0, but it is not capped
above: a present tick sets it to `hit_score + 1` (no `min` with
`threshold_frames`), an absent tick to `max(hit_score - 1, 0)`. -/
theorem C1_amended (args : Args) (ts : List Tick) :
    (∀ p ∈ runFrom args initState ts, 0 ≤ p.1.consecutive_hits) ∧
    (∀ (s : EngineState) (pr : Bool) (n : ℚ),
      (step args s pr n).1.consecutive_hits =
        if pr then s.consecutive_hits + 1 else max 0 (s.consecutive_hits - 1)) :=
  ⟨runFrom_hits_nonneg args ts initState (le_refl 0),
   fun s pr n => step_hits args s pr n⟩

/-- C1 (amended), witness at a concrete run of one present tick. -/
theorem C1_amended_witness :
    0 ≤ (step cfgA initState true 0).1.consecutive_hits :=
  (C1_amended cfgA [(true, 0)]).1 (step cfgA initState true 0) (by simp [runFrom])

/-- C2, counterexample: `threshold_frames = 3`, `cooldown_seconds = 5`,
present ticks at `t = 0,1,2,3,10`.  The claim says the trigger fires on
the tick at `t = 2` (index 2); in the code `last_trigger_time` starts at
`0.0` (line 74), so the check `2 - 0 >= 5` fails and no trigger fires
there. -/
theorem C2_counterexample :
    ((runFrom cfgB initState ticksB).map Prod.snd)[2]? = some false := by
  norm_num [runFrom, step, initState, ticksB, cfgB]

/-- C2 (amended): `last_trigger_time` is initialised to `0.0`, not to a
"never" sentinel, and the cooldown check is purely numeric, so even the
first trigger requires `timestamp - 0 >= cooldown_seconds`; in the
scenario the trigger fires at `t = 10` (the fifth tick), not at `t = 2`. -/
theorem C2_amended :
    (runFrom cfgB initState ticksB).map Prod.snd = [false, false, false, false, true] ∧
    (∀ (args : Args) (s : EngineState) (pr : Bool) (n : ℚ),
      (step args s pr n).2 = true → args.cooldown ≤ n - s.last_trigger_time) := by
  constructor
  · norm_num [runFrom, step, initState, ticksB, cfgB]
  · exact fun args s pr n h => step_fire_cooldown args s pr n h

/-- C2 (amended), witness: a firing tick at time 0 with cooldown 0. -/
theorem C2_amended_witness :
    cfgA.cooldown ≤ (0:ℚ) - initState.last_trigger_time :=
  C2_amended.2 cfgA initState true 0 (by norm_num [step, initState, cfgA])

/-- C3, counterexample: constructing with `threshold_frames = 0` and
`cooldown_seconds = -1` succeeds — `parse_args` (lines 28-38) performs no
range validation — while the spec's construction-time validation would
reject it. -/
theorem C3_counterexample :
    parse_args 0 (-1) = some ⟨0, -1⟩ ∧ parse_args_specified 0 (-1) = none := by
  constructor
  · rfl
  · norm_num [parse_args_specified]

/-- C3 (amended): construction never rejects: every `threshold_frames`
(including values ≤ 0) and every `cooldown_seconds` (including negative
values) is accepted, and no configuration error exists at construction. -/
theorem C3_amended : ∀ (frames : ℤ) (cooldown : ℚ),
    parse_args frames cooldown = some ⟨frames, cooldown⟩ :=
  fun _ _ => rfl

/-- C4: pending-fire behaviour.  If a tick brings `hit_score` to the
threshold while not stable but the cooldown has not elapsed, that tick
emits no trigger, leaves `is_stable` false and `last_trigger_time`
unchanged; and over any run of subsequent present ticks the engine fires
exactly at the first tick whose timestamp clears the cooldown. -/
theorem C4_pending_fire (args : Args) (s : EngineState) (pr : Bool) (now : ℚ) (ts : List ℚ)
    (hst : s.detected_stable = false)
    (h0 : 0 ≤ s.consecutive_hits)
    (hge : args.frames ≤ (step args s pr now).1.consecutive_hits)
    (hcd : now - s.last_trigger_time < args.cooldown) :
    ((step args s pr now).2 = false ∧
     (step args s pr now).1.detected_stable = false ∧
     (step args s pr now).1.last_trigger_time = s.last_trigger_time) ∧
    (runFrom args (step args s pr now).1 (ts.map (fun t => (true, t)))).map Prod.snd
      = pendingFireSpec s.last_trigger_time args.cooldown ts := by
  have hfire : (step args s pr now).2 = false := by
    rw [step_fire]
    have hn : ¬ (args.cooldown ≤ now - s.last_trigger_time) := not_le.mpr hcd
    simp [hn]
  have hnext := step_of_no_fire_not_stable args s pr now hst hfire
  constructor
  · exact ⟨hfire, by rw [hnext], by rw [hnext]⟩
  · have h1 : (step args s pr now).1.detected_stable = false := by rw [hnext]
    have h3 : 0 ≤ (step args s pr now).1.consecutive_hits := step_hits_nonneg args s pr now h0
    have h4 : (step args s pr now).1.last_trigger_time = s.last_trigger_time := by rw [hnext]
    rw [← h4]
    exact runFrom_pending args ts (step args s pr now).1 h1 hge h3

/-- C4, witness: Scenario 3's shape — threshold reached at `t = 2` with
`last_trigger_time = 0` and cooldown 5; the pending trigger fires at the
first later present tick past the cooldown. -/
theorem C4_pending_fire_witness :
    ((2:ℚ) - 0 < 5) ∧
    ((runFrom cfgB (step cfgB ⟨2, false, 0⟩ true 2).1 ([3, 10].map (fun t => (true, t)))).map
        Prod.snd
      = pendingFireSpec (0:ℚ) 5 [3, 10]) := by
  constructor
  · norm_num
  · exact (C4_pending_fire cfgB ⟨2, false, 0⟩ true 2 [3, 10] rfl (by norm_num)
      (by rw [step_hits]; norm_num [cfgB]) (by norm_num [cfgB])).2

/-- C5: at most one trigger per confirmed episode.  If the run from the
initial state fires at positions `i < j`, then `hit_score` was exactly 0
at the end of some tick in `[i, j)`, and at `j` it is back at or above
the threshold. -/
theorem C5_once_per_episode (args : Args) (ts : List Tick) (i j : ℕ) (si sj : EngineState)
    (hij : i < j)
    (hi : (runFrom args initState ts)[i]? = some (si, true))
    (hj : (runFrom args initState ts)[j]? = some (sj, true)) :
    args.frames ≤ sj.consecutive_hits ∧
    ∃ (k : ℕ) (sk : EngineState) (bk : Bool), i ≤ k ∧ k < j ∧
      (runFrom args initState ts)[k]? = some (sk, bk) ∧ sk.consecutive_hits = 0 := by
  constructor
  · have hmem : (sj, true) ∈ runFrom args initState ts := List.getElem?_mem hj
    obtain ⟨s0, pr, n, heq⟩ := runFrom_mem_step args ts initState (sj, true) hmem
    have hfire : (step args s0 pr n).2 = true := by rw [← heq]
    have hth := step_fire_threshold args s0 pr n hfire
    rw [← heq] at hth
    exact hth
  · exact runFrom_two_fires args ts initState i j si sj hij hi hj

/-- C5, witness: two episodes separated by one absent tick. -/
theorem C5_once_per_episode_witness :
    cfgA.frames ≤ (EngineState.mk 1 true 2).consecutive_hits ∧
    ∃ (k : ℕ) (sk : EngineState) (bk : Bool), 0 ≤ k ∧ k < 2 ∧
      (runFrom cfgA initState ticksC)[k]? = some (sk, bk) ∧ sk.consecutive_hits = 0 :=
  C5_once_per_episode cfgA ticksC 0 2 ⟨1, true, 0⟩ ⟨1, true, 2⟩ (by norm_num)
    (by norm_num [runFrom, step, initState, ticksC, cfgA])
    (by norm_num [runFrom, step, initState, ticksC, cfgA])

/-- C6: the stability flag.  In a run from the initial state, any
position whose state is stable is at or after a position whose
end-of-tick `hit_score` met the threshold; and the flag goes from true
to false only on a tick that ends with `hit_score` exactly 0. -/
theorem C6_stable_flag (args : Args) (ts : List Tick) :
    (∀ (j : ℕ) (sj : EngineState) (b : Bool),
      (runFrom args initState ts)[j]? = some (sj, b) → sj.detected_stable = true →
      ∃ (k : ℕ) (sk : EngineState) (bk : Bool), k ≤ j ∧
        (runFrom args initState ts)[k]? = some (sk, bk) ∧
        args.frames ≤ sk.consecutive_hits) ∧
    (∀ (s : EngineState) (pr : Bool) (n : ℚ), s.detected_stable = true →
      (step args s pr n).1.detected_stable = false →
      (step args s pr n).1.consecutive_hits = 0) :=
  ⟨fun j sj b hj hs => runFrom_stable_reached args ts initState rfl j sj b hj hs,
   fun s pr n hs h => step_zero_of_stable_cleared args s pr n hs h⟩

/-- C6, witness: one present tick that confirms and fires. -/
theorem C6_stable_flag_witness :
    ∃ (k : ℕ) (sk : EngineState) (bk : Bool), k ≤ 0 ∧
      (runFrom cfgA initState [(true, 0)])[k]? = some (sk, bk) ∧
      cfgA.frames ≤ sk.consecutive_hits :=
  (C6_stable_flag cfgA [(true, 0)]).1 0 ⟨1, true, 0⟩ true
    (by norm_num [runFrom, step, initState, cfgA]) rfl

/-- C7, counterexample: `threshold_frames = 4`, `cooldown_seconds = 10 ≥ 0`,
flicker ticks at times 0..5 with no prior trigger.  The claim says the
trigger fires on the 6th tick, but `5 - 0 >= 10` fails (the initial
`last_trigger_time` is `0.0`), so no trigger fires. -/
theorem C7_counterexample :
    (0:ℚ) ≤ 10 ∧
    ((runFrom ⟨4, 10⟩ initState (flickerTicks 0 1 2 3 4 5)).map Prod.snd)[5]? = some false := by
  constructor
  · norm_num
  · norm_num [runFrom, step, initState, flickerTicks]

/-- C7 (amended): with `threshold_frames = 4`, the flicker pattern
`[T,T,F,T,T,T]` always yields the `hit_score` sequence `1,2,1,2,3,4`
(the single miss only decrements), no trigger fires before the 6th tick,
and the 6th tick triggers exactly when its timestamp `t6` satisfies
`t6 - 0 >= cooldown_seconds` (the initial `last_trigger_time` being 0). -/
theorem C7_amended (cd t1 t2 t3 t4 t5 t6 : ℚ) :
    (runFrom ⟨4, cd⟩ initState (flickerTicks t1 t2 t3 t4 t5 t6)).map
        (fun p => p.1.consecutive_hits) = [1, 2, 1, 2, 3, 4] ∧
    (runFrom ⟨4, cd⟩ initState (flickerTicks t1 t2 t3 t4 t5 t6)).map Prod.snd
      = [false, false, false, false, false, decide (cd ≤ t6 - 0)] := by
  constructor <;>
  · by_cases hc : cd ≤ t6 <;>
      norm_num [runFrom, step, initState, flickerTicks, hc]

/-- C8: frame condition of a non-triggering tick: `last_trigger_time` is
unchanged, and `detected_stable` either keeps its value or drops from
true to false with the tick ending at `hit_score = 0`. -/
theorem C8_frame_condition (args : Args) (s : EngineState) (pr : Bool) (n : ℚ)
    (h : (step args s pr n).2 = false) :
    (step args s pr n).1.last_trigger_time = s.last_trigger_time ∧
    ((step args s pr n).1.detected_stable = s.detected_stable ∨
      (s.detected_stable = true ∧ (step args s pr n).1.detected_stable = false ∧
        (step args s pr n).1.consecutive_hits = 0)) := by
  refine ⟨step_last_of_no_fire args s pr n h, ?_⟩
  by_cases hs : s.detected_stable = true
  · by_cases hc : (step args s pr n).1.detected_stable = true
    · left; rw [hc, hs]
    · right
      rw [Bool.not_eq_true] at hc
      exact ⟨hs, hc, step_zero_of_stable_cleared args s pr n hs hc⟩
  · left
    rw [Bool.not_eq_true] at hs
    rw [step_of_no_fire_not_stable args s pr n hs h, hs]

/-- C8, witness: a present tick below the threshold triggers nothing and
only moves the counter. -/
theorem C8_frame_condition_witness :
    (step ⟨2, 0⟩ initState true 0).1.last_trigger_time = initState.last_trigger_time ∧
    ((step ⟨2, 0⟩ initState true 0).1.detected_stable = initState.detected_stable ∨
      (initState.detected_stable = true ∧
        (step ⟨2, 0⟩ initState true 0).1.detected_stable = false ∧
        (step ⟨2, 0⟩ initState true 0).1.consecutive_hits = 0)) :=
  C8_frame_condition ⟨2, 0⟩ initState true 0 (by norm_num [step, initState])

/-- C9: the increment branch has no upper cap: from `hit_score = 0`, a
run of `k` present ticks (any timestamps, any configuration, any stable
flag and any `last_trigger_time`) leaves `hit_score` exactly `k`. -/
theorem C9_unbounded (args : Args) (b : Bool) (l : ℚ) (ts : List ℚ) :
    (runState args ⟨0, b, l⟩ (ts.map (fun t => (true, t)))).consecutive_hits = ts.length := by
  rw [runState_present_hits]
  simp

/-- C10: run with `threshold_frames <= 0`, the very first tick — present
or absent — already satisfies the threshold comparison, so it triggers
exactly when the cooldown check passes. -/
theorem C10_degenerate (args : Args) (h : args.frames ≤ 0) (pr : Bool) (n : ℚ) :
    (step args initState pr n).2 = decide (args.cooldown ≤ n - initState.last_trigger_time) := by
  rw [step_fire]
  have h1 : decide (args.frames ≤ (if pr then initState.consecutive_hits + 1
      else max 0 (initState.consecutive_hits - 1))) = true := by
    rw [decide_eq_true_eq]
    cases pr
    · show args.frames ≤ max 0 ((0:ℤ) - 1)
      have hle : ((0:ℤ) - 1) ≤ 0 := by norm_num
      rw [max_eq_left hle]
      exact h
    · show args.frames ≤ (0:ℤ) + 1
      omega
  rw [h1]
  simp [initState]

/-- C10, witness: `threshold_frames = 0`, an absent first tick at time 0
with cooldown 0 triggers. -/
theorem C10_degenerate_witness :
    (step ⟨0, 0⟩ initState false 0).2
      = decide ((Args.mk 0 0).cooldown ≤ 0 - initState.last_trigger_time) :=
  C10_degenerate ⟨0, 0⟩ (by norm_num) false 0
